import Mathlib

set_option maxHeartbeats 1000000

/-!
Verification development for the agent-todo-executor repository.

The frontend observer (Zustand store, ChatPanel, useSSE hook) is embedded
from the TypeScript sources under src/frontend.  The backend execution
engine (LangGraph nodes) is not shipped in the repository snapshot; the
definitions for it are modelled from the specification and are marked as
such in their doc comments.
-/

namespace TodoExec

/-- Task status enumeration, from src/frontend/src/types/index.ts
(`TaskStatus`). -/
inductive TaskStatus where
  | pending
  | in_progress
  | completed
  | failed
  | needs_followup
  deriving DecidableEq

/-- Execution phase enumeration, from src/frontend/src/types/index.ts
(`ExecutionPhase`). -/
inductive ExecutionPhase where
  | idle
  | connecting
  | analyzing
  | planning
  | executing
  | reflecting
  | paused
  | completed
  | error
  deriving DecidableEq

/-- A task record, from src/frontend/src/types/index.ts (`Task`).
`result` and `error` are the optional outcome fields; `started_at` and
`completed_at` are optional timestamp strings. -/
structure Task where
  id : String
  title : String
  description : String
  status : TaskStatus
  result : Option String
  error : Option String
  started_at : Option String
  completed_at : Option String
  deriving DecidableEq

/-- A trace entry, from src/frontend/src/types/index.ts (`TraceEntry`).
The opaque `details` JSON object is represented as an optional string. -/
structure TraceEntry where
  timestamp : String
  node : String
  action : String
  task_id : Option String
  message : String
  details : Option String
  deriving DecidableEq

/-- Chat message role (`"user" | "assistant"` in the TypeScript types). -/
inductive Role where
  | user
  | assistant
  deriving DecidableEq

/-- A chat message, from src/frontend/src/types/index.ts (`Message`). -/
structure Message where
  id : String
  role : Role
  content : String
  timestamp : String
  deriving DecidableEq

/-- A saved-session summary, from the `SavedSession` interface in the
store section of src/frontend/src/components/ChatPanel.tsx. -/
structure SavedSession where
  session_id : String
  goal : String
  phase : String
  task_count : Nat
  completed_count : Nat
  deriving DecidableEq

/-- SSE event types, from src/frontend/src/types/index.ts
(`SSEEventType`). -/
inductive SSEEventType where
  | connected
  | node_start
  | node_end
  | phase_change
  | tasks_update
  | trace
  | message
  | complete
  | error
  | ping
  deriving DecidableEq

/-- The payload of an SSE event.  In the TypeScript source the payload is
`Record<string, unknown>` and each handler branch casts the field it
needs (`data.phase`, `data.tasks`, `data.trace`, `data.role`,
`data.content`, `data.error`); the record below carries one field per
such access, so quantifying over `SSEData` quantifies over every payload
the handler can observe. -/
structure SSEData where
  phase : ExecutionPhase
  tasks : List Task
  trace : TraceEntry
  role : Role
  content : String
  error : String
  deriving DecidableEq

/-- The Zustand executor-store state, from the `ExecutorState` interface
and `initialState` object in src/frontend/src/components/ChatPanel.tsx
(store section).  Function-valued members (the actions) are modelled as
top-level functions on this record. -/
structure ExecutorState where
  sessionId : Option String
  goal : String
  phase : ExecutionPhase
  isConnected : Bool
  tasks : List Task
  traces : List TraceEntry
  messages : List Message
  savedSessions : List SavedSession
  isLoadingSessions : Bool
  isLoading : Bool
  isResuming : Bool
  isViewOnly : Bool
  resumeInput : Option String
  error : Option String
  deriving DecidableEq

/-- The `initialState` object of the executor store. -/
def initialState : ExecutorState :=
  { sessionId := none
    goal := ""
    phase := .idle
    isConnected := false
    tasks := []
    traces := []
    messages := []
    savedSessions := []
    isLoadingSessions := false
    isLoading := false
    isResuming := false
    isViewOnly := false
    resumeInput := none
    error := none }

/-- Store action `addTrace`: appends one trace entry at the end of the
trace list (`traces: [...state.traces, trace]`). -/
def addTrace (t : TraceEntry) (s : ExecutorState) : ExecutorState :=
  { s with traces := s.traces ++ [t] }

/-- Store action `addMessage`: appends one message at the end of the
message list. -/
def addMessage (m : Message) (s : ExecutorState) : ExecutorState :=
  { s with messages := s.messages ++ [m] }

/-- Store action `setTasks`: replaces the task list. -/
def setTasks (tasks : List Task) (s : ExecutorState) : ExecutorState :=
  { s with tasks := tasks }

/-- Store action `setError`. -/
def setError (e : Option String) (s : ExecutorState) : ExecutorState :=
  { s with error := e }

/-- Store action `setLoading`. -/
def setLoading (b : Bool) (s : ExecutorState) : ExecutorState :=
  { s with isLoading := b }

/-- The store's `handleSSEEvent` switch, from
src/frontend/src/components/ChatPanel.tsx (store section).  `nowMs` and
`nowIso` stand for the two clock reads `Date.now()` and
`new Date().toISOString()` used by the `message` branch.  The `ping`
branch and the `default` branch (reached by `node_start` / `node_end`)
perform no state update. -/
def handleSSEEvent (eventType : SSEEventType) (data : SSEData)
    (nowMs nowIso : String) (s : ExecutorState) : ExecutorState :=
  match eventType with
  | .connected => { s with isConnected := true }
  | .phase_change => { s with phase := data.phase }
  | .tasks_update => { s with tasks := data.tasks }
  | .trace => { s with traces := s.traces ++ [data.trace] }
  | .message =>
      { s with messages := s.messages ++
          [{ id := "msg-" ++ nowMs
             role := data.role
             content := data.content
             timestamp := nowIso }] }
  | .complete => { s with phase := .completed, isLoading := false }
  | .error =>
      { s with error := some data.error, phase := .error, isLoading := false }
  | .ping => s
  | .node_start => s
  | .node_end => s

/-- Store action `reset`: `set(initialState)`.  Zustand's `set` merges
the given object into the state key by key; `initialState` lists every
data field, so each field is written back to its initial value. -/
def reset (s : ExecutorState) : ExecutorState :=
  { s with
    sessionId := none
    goal := ""
    phase := .idle
    isConnected := false
    tasks := []
    traces := []
    messages := []
    savedSessions := []
    isLoadingSessions := false
    isLoading := false
    isResuming := false
    isViewOnly := false
    resumeInput := none
    error := none }

/-- From src/frontend/src/components/ChatPanel.tsx line 44: the tasks
with status `pending` or `failed` ("incomplete tasks"). -/
def incompleteTasks (tasks : List Task) : List Task :=
  tasks.filter (fun t =>
    t.status == TaskStatus.pending || t.status == TaskStatus.failed)

/-- From src/frontend/src/components/ChatPanel.tsx line 45:
`canResume = incompleteTasks.length > 0 && phase === "completed"`. -/
def canResume (tasks : List Task) (phase : ExecutionPhase) : Bool :=
  decide (0 < (incompleteTasks tasks).length)
    && (phase == ExecutionPhase.completed)

/-- From src/frontend/src/app/page.tsx line 387:
`hasPending = session.completed_count < session.task_count`. -/
def hasPending (sess : SavedSession) : Bool :=
  decide (sess.completed_count < sess.task_count)

/-- From src/frontend/src/app/page.tsx line 424: the Resume button of a
saved-session card is rendered when
`hasPending && session.phase !== "completed"`. -/
def resumeButtonShown (sess : SavedSession) : Bool :=
  hasPending sess && !(sess.phase == "completed")

/-- An SSE event as delivered to the subscription: a type tag and a
payload. -/
structure SSEEvent where
  event : SSEEventType
  data : SSEData
  deriving DecidableEq

/-- From src/frontend/src/hooks/useSSE.ts lines 115: the event types on
which the listener closes the connection (`complete` or `error`). -/
def isTerminalEvent (ev : SSEEventType) : Bool :=
  ev == SSEEventType.complete || ev == SSEEventType.error

/-- The subscription loop of src/frontend/src/hooks/useSSE.ts lines
108-124: each incoming event is handled by the registered listener, and
when the event type is `complete` or `error` the listener closes the
`EventSource`, after which no further event of this subscription is
delivered.  `deliverAll` returns the events the subscription actually
handles out of the incoming sequence. -/
def deliverAll : List SSEEvent → List SSEEvent
  | [] => []
  | e :: rest =>
      if isTerminalEvent e.event then [e] else e :: deliverAll rest

/-- Modelled from the spec: the outcome of a Content Generator call for
one task during `executing` (§4.1): either a result text or a failure
reason.  The backend engine code is not present under src/. -/
inductive ExecOutcome where
  | ok (result : String)
  | fail (reason : String)
  deriving DecidableEq

/-- Modelled from the spec: one Content Generator output (§2, §4.1) —
an acknowledgement for `analyzing`, a proposed task list for `planning`,
a task outcome for `executing`, or a progress summary for `reflecting`.
The backend engine code is not present under src/. -/
inductive GenResult where
  | ack (msg : String)
  | plan (proposals : List (String × String))
  | exec (outcome : ExecOutcome)
  | summary (msg : String)
  deriving DecidableEq

/-- Modelled from the spec: the Execution Engine's state-machine nodes
(§4.1): `analyzing → planning → selecting → executing → reflecting →
(selecting | completing) → completed`, plus `error`.  `paused` is kept as
a flag on the run state (§3), not a node. -/
inductive EngineNode where
  | analyzing
  | planning
  | selecting
  | executing
  | reflecting
  | completing
  | completed
  | error
  deriving DecidableEq

/-- Modelled from the spec: the Run State (§3) — goal text, current
phase, Task Ledger, append-only trace log, paused flag and optional last
error.  The backend engine code is not present under src/. -/
structure EngineState where
  goal : String
  phase : EngineNode
  tasks : List Task
  traces : List TraceEntry
  paused : Bool
  error : Option String
  deriving DecidableEq

/-- The LangGraph node name of each engine phase, following the node
names in the architecture documents (src/unnamed/part_004). -/
def nodeName : EngineNode → String
  | .analyzing => "analyze_goal"
  | .planning => "plan_todos"
  | .selecting => "select_task"
  | .executing => "execute_task"
  | .reflecting => "reflect"
  | .completing => "complete"
  | .completed => "completed"
  | .error => "error"

/-- Modelled from the spec: a fresh Trace Entry for the engine's next
action (§3).  Wall-clock timestamps are abstracted by the logical time
`s.traces.length` (the number of previously recorded entries), which
keeps the model deterministic. -/
def traceEntry (s : EngineState) (action : String) (tid : Option String)
    (msg : String) : TraceEntry :=
  { timestamp := toString s.traces.length
    node := nodeName s.phase
    action := action
    task_id := tid
    message := msg
    details := none }

/-- Modelled from the spec: transition to the `error` phase recording
the failure reason in the trace log and the last-error field (§7). -/
def toError (s : EngineState) (reason : String) : EngineState :=
  { s with
    phase := .error
    error := some reason
    traces := s.traces ++ [traceEntry s "error" none reason] }

/-- Modelled from the spec: a freshly planned task — all tasks start
`pending` with no result, no error and no timestamps (§4.1 planning).
The opaque short identifier is the task's index in the planned list. -/
def mkTask (idx : Nat) (p : String × String) : Task :=
  { id := toString idx
    title := p.1
    description := p.2
    status := .pending
    result := none
    error := none
    started_at := none
    completed_at := none }

/-- Modelled from the spec: the `selecting` ledger update (§4.1) — scan
in ledger order for the first task with status `pending`, mark it
`in_progress` and record its start timestamp; all other tasks are left
unchanged. -/
def updateFirstPending (ts : String) : List Task → List Task
  | [] => []
  | t :: rest =>
      if t.status == TaskStatus.pending then
        { t with status := .in_progress, started_at := some ts } :: rest
      else t :: updateFirstPending ts rest

/-- Modelled from the spec: the `executing` ledger update (§4.1) — the
(unique) `in_progress` task is marked `completed` with its result and
completion timestamp on generator success, or `failed` with the failure
reason on generator failure. -/
def finishCurrent (outcome : ExecOutcome) (ts : String) :
    List Task → List Task
  | [] => []
  | t :: rest =>
      if t.status == TaskStatus.in_progress then
        (match outcome with
         | .ok r =>
             { t with
               status := .completed
               result := some r
               completed_at := some ts }
         | .fail e => { t with status := .failed, error := some e }) :: rest
      else t :: finishCurrent outcome ts rest

/-- The per-task `completed` / `failed` counts used by the final summary
(§4.1 completing). -/
def countStatus (st : TaskStatus) (tasks : List Task) : Nat :=
  (tasks.filter (fun t => t.status == st)).length

/-- The final summary message of the `completing` phase. -/
def summaryMessage (tasks : List Task) : String :=
  toString (countStatus .completed tasks) ++ "/" ++ toString tasks.length
    ++ " tasks completed, " ++ toString (countStatus .failed tasks)
    ++ " failed"

/-- Modelled from the spec: one state-machine transition of the
Execution Engine (§4.1).  The Content Generator is modelled as the list
of its remaining outputs; phases that call the generator (`analyzing`,
`planning`, `executing`, `reflecting`) consume the head output, the
in-memory phases (`selecting`, `completing`) consume nothing.  A
generator output of the wrong shape is malformed generator output (§9):
fatal during `analyzing`/`planning`, a task-local failure during
`executing`, ignored during the purely observational `reflecting`.  The
paused flag is checked at the transition boundary (§5); terminal phases
do not advance.  The backend engine code is not present under src/. -/
def engineStep : EngineState × List GenResult → EngineState × List GenResult
  | (s, gs) =>
    if s.paused then (s, gs)
    else
      match s.phase with
      | .completed => (s, gs)
      | .error => (s, gs)
      | .analyzing =>
          if s.goal = "" then (toError s "Goal cannot be empty", gs)
          else
            match gs with
            | [] => (s, gs)
            | g :: rest =>
                match g with
                | .ack msg =>
                    ({ s with
                       phase := .planning
                       traces := s.traces ++
                         [traceEntry s "analyze" none msg] },
                     rest)
                | _ => (toError s "malformed generator output", rest)
      | .planning =>
          match gs with
          | [] => (s, gs)
          | g :: rest =>
              match g with
              | .plan proposals =>
                  if proposals.isEmpty then
                    (toError s "planning failure", rest)
                  else
                    ({ s with
                       tasks := proposals.enum.map (fun p => mkTask p.1 p.2)
                       phase := .selecting
                       traces := s.traces ++
                         [traceEntry s "plan" none "task ledger initialized"] },
                     rest)
              | _ => (toError s "planning failure", rest)
      | .selecting =>
          if (s.tasks.filter
                (fun t => t.status == TaskStatus.pending)).isEmpty then
            ({ s with
               phase := .completing
               traces := s.traces ++
                 [traceEntry s "no_pending" none "all tasks finished"] }, gs)
          else
            ({ s with
               tasks := updateFirstPending (toString s.traces.length) s.tasks
               phase := .executing
               traces := s.traces ++
                 [traceEntry s "select" none "selected first pending task"] },
             gs)
      | .executing =>
          match gs with
          | [] => (s, gs)
          | g :: rest =>
              let outcome :=
                match g with
                | .exec o => o
                | _ => ExecOutcome.fail "malformed generator output"
              ({ s with
                 tasks := finishCurrent outcome (toString s.traces.length)
                   s.tasks
                 phase := .reflecting
                 traces := s.traces ++
                   [traceEntry s "execute" none "task finished"] },
               rest)
      | .reflecting =>
          match gs with
          | [] => (s, gs)
          | g :: rest =>
              let msg := match g with | .summary m => m | _ => ""
              ({ s with
                 phase := .selecting
                 traces := s.traces ++ [traceEntry s "reflect" none msg] },
               rest)
      | .completing =>
          ({ s with
             phase := .completed
             traces := s.traces ++
               [traceEntry s "summary" none (summaryMessage s.tasks)] }, gs)

/-- `n` engine transitions from a given state and remaining generator
outputs. -/
def runEngine (n : Nat) (p : EngineState × List GenResult) :
    EngineState × List GenResult :=
  engineStep^[n] p

/-- Modelled from the spec: the initial Run State of a fresh run —
phase `analyzing`, empty ledger, empty trace log, not paused, no
error (§4.1). -/
def engineInit (goal : String) : EngineState :=
  { goal := goal
    phase := .analyzing
    tasks := []
    traces := []
    paused := false
    error := none }

/-- Modelled from the spec: a Checkpoint Store snapshot — goal, phase,
full ordered Task Ledger, full ordered trace log, paused flag and last
error (§6 persisted layout). -/
structure Snapshot where
  goal : String
  phase : EngineNode
  tasks : List Task
  traces : List TraceEntry
  paused : Bool
  error : Option String
  deriving DecidableEq

/-- Modelled from the spec: `save(runId, RunState)` — write the full Run
State snapshot (§4.4). -/
def save (s : EngineState) : Snapshot :=
  { goal := s.goal
    phase := s.phase
    tasks := s.tasks
    traces := s.traces
    paused := s.paused
    error := s.error }

/-- Modelled from the spec: `load(runId)` — rebuild the Run State from
the most recent snapshot (§4.4). -/
def load (c : Snapshot) : EngineState :=
  { goal := c.goal
    phase := c.phase
    tasks := c.tasks
    traces := c.traces
    paused := c.paused
    error := c.error }

/-- Modelled from the spec: resuming re-enters the Engine at the stored
phase with the stored Task Ledger, clearing the paused flag (the resume
call streams with `is_paused: False`, src/unnamed/part_004 lines
333-344). -/
def resumeEngine (c : Snapshot) : EngineState :=
  { load c with paused := false }

/-- The routing result of `should_continue`: loop back to the
`select_task` node or exit to `complete`. -/
inductive Route where
  | select_task
  | complete
  deriving DecidableEq

/-- Embedded from the `should_continue` routing function quoted from
graph.py in src/unnamed/part_004 lines 121-131: collect the tasks whose
status is `pending`; if any exist route to `select_task`, otherwise
route to `complete`. -/
def should_continue (tasks : List Task) : Route :=
  let pending_tasks :=
    tasks.filter (fun t => t.status == TaskStatus.pending)
  if pending_tasks.isEmpty then .complete else .select_task

/-- The Task invariant of spec §3: `result` is present only when the
task is `completed` and `error` only when it is `failed` (hence the two
are mutually exclusive). -/
def taskInv (t : Task) : Prop :=
  (t.result.isSome = true → t.status = TaskStatus.completed) ∧
  (t.error.isSome = true → t.status = TaskStatus.failed)

/-- Modelled from the spec: the typed events of the event-stream
contract (§6) as published by the engine to the Event Bus.  The backend
publication code is not present under src/. -/
inductive BusEvent where
  | phase_change (phase : EngineNode)
  | tasks_update (tasks : List Task)
  | trace (entry : TraceEntry)
  | message (role : Role) (content : String)
  | complete
  | error (reason : String)
  deriving DecidableEq

/-- Modelled from the spec: the events the Engine publishes to the
Event Bus after one transition (§4.1 step (b), §6, §7) — the updated
phase when it changed, the updated Task Ledger when it changed, each
newly appended trace entry, a first-class `error` event carrying the
failure reason whenever a new last-error was recorded, and a `complete`
event upon reaching the `completed` phase.  The backend publication
code is not present under src/. -/
def publishTransition (s s' : EngineState) : List BusEvent :=
  (if s'.phase ≠ s.phase then [BusEvent.phase_change s'.phase]
   else []) ++
  (if s'.tasks ≠ s.tasks then [BusEvent.tasks_update s'.tasks]
   else []) ++
  (s'.traces.drop s.traces.length).map BusEvent.trace ++
  (if s'.error ≠ s.error then
    (match s'.error with
     | some r => [BusEvent.error r]
     | none => [])
   else []) ++
  (if s'.phase = EngineNode.completed ∧ s'.phase ≠ s.phase then
    [BusEvent.complete]
   else [])

/-- A concrete trace entry used to instantiate universally quantified
theorems on concrete inputs. -/
def sampleTrace : TraceEntry :=
  { timestamp := "t0"
    node := "analyze_goal"
    action := "analyzing"
    task_id := none
    message := "Analyzing goal..."
    details := none }

/-- A concrete SSE payload used to instantiate universally quantified
theorems on concrete inputs. -/
def sampleData : SSEData :=
  { phase := .executing
    tasks := []
    trace := sampleTrace
    role := .assistant
    content := "hello"
    error := "Connection failed" }

/-- A concrete non-terminal SSE event. -/
def sampleConnectedEvent : SSEEvent :=
  { event := .connected, data := sampleData }

/-- A concrete terminal SSE event. -/
def sampleCompleteEvent : SSEEvent :=
  { event := .complete, data := sampleData }

/-- A concrete task whose status is `failed` (and not `pending`). -/
def taskFailedOnly : Task :=
  { id := "1"
    title := "T1"
    description := "d1"
    status := .failed
    result := none
    error := some "boom"
    started_at := none
    completed_at := none }

/-- A concrete task whose status is `pending`. -/
def taskPendingOnly : Task :=
  { id := "2"
    title := "T2"
    description := "d2"
    status := .pending
    result := none
    error := none
    started_at := none
    completed_at := none }

/-- Concrete ledger entry A of the selection tie-break scenario:
status `completed`. -/
def taskA : Task :=
  { id := "A"
    title := "A"
    description := "a"
    status := .completed
    result := some "done"
    error := none
    started_at := some "0"
    completed_at := some "1"}

/-- Concrete ledger entry B of the selection tie-break scenario:
status `pending`. -/
def taskB : Task :=
  { id := "B"
    title := "B"
    description := "b"
    status := .pending
    result := none
    error := none
    started_at := none
    completed_at := none }

/-- Concrete ledger entry C of the selection tie-break scenario:
status `pending`. -/
def taskC : Task :=
  { id := "C"
    title := "C"
    description := "c"
    status := .pending
    result := none
    error := none
    started_at := none
    completed_at := none }

/-- A concrete engine state at phase `selecting` over the ledger
[A:completed, B:pending, C:pending]. -/
def stateABC : EngineState :=
  { goal := "g"
    phase := .selecting
    tasks := [taskA, taskB, taskC]
    traces := []
    paused := false
    error := none }

/-- A concrete generator-output stream: acknowledgement, a one-task
plan, a successful execution, a reflection summary. -/
def demoGen : List GenResult :=
  [.ack "a", .plan [("t", "d")], .exec (.ok "r"), .summary "s"]

/-- The task produced by running the engine four transitions on
`demoGen` (planned at index 0, selected at logical time 2, completed at
logical time 3). -/
def demoTask : Task :=
  { id := "0"
    title := "t"
    description := "d"
    status := .completed
    result := some "r"
    error := none
    started_at := some "2"
    completed_at := some "3" }

/-! ### Theorems about the frontend observer -/

/-- C10: from any store state (hence after any sequence of store
actions), `reset` returns the store to exactly its initial state —
sessionId null, goal empty, phase idle, disconnected, empty tasks,
traces and messages, not loading and no error — and is therefore
idempotent. -/
theorem reset_restores_initial_state (s : ExecutorState) :
    reset s = initialState ∧ reset (reset s) = reset s ∧
    (reset s).sessionId = none ∧ (reset s).goal = "" ∧
    (reset s).phase = ExecutionPhase.idle ∧
    (reset s).isConnected = false ∧ (reset s).tasks = [] ∧
    (reset s).traces = [] ∧ (reset s).messages = [] ∧
    (reset s).isLoading = false ∧ (reset s).error = none :=
  ⟨rfl, rfl, rfl, rfl, rfl, rfl, rfl, rfl, rfl, rfl, rfl⟩

/-- C7: handling a keep-alive `ping` event carries no state — for every
payload, every clock reading and every store state, the state after the
event equals the state before it in every field. -/
theorem ping_event_preserves_state (data : SSEData)
    (nowMs nowIso : String) (s : ExecutorState) :
    handleSSEEvent SSEEventType.ping data nowMs nowIso s = s := rfl

/-- C9: for every event type outside the handled set {connected,
phase_change, tasks_update, trace, message, complete, error, ping}
(i.e. `node_start` and `node_end`, which reach the logging-only default
branch) and every payload, `handleSSEEvent` leaves the entire store
state unchanged. -/
theorem unhandled_event_preserves_state (ev : SSEEventType)
    (h : ev ∉ [SSEEventType.connected, SSEEventType.phase_change,
      SSEEventType.tasks_update, SSEEventType.trace,
      SSEEventType.message, SSEEventType.complete, SSEEventType.error,
      SSEEventType.ping])
    (data : SSEData) (nowMs nowIso : String) (s : ExecutorState) :
    handleSSEEvent ev data nowMs nowIso s = s := by
  cases ev <;> first | rfl | exact absurd (by decide) h

/-- Witness for C9: handling `node_start` on the initial state with a
concrete payload returns the state unchanged. -/
theorem unhandled_event_preserves_state_witness :
    handleSSEEvent SSEEventType.node_start sampleData "0" "t0"
      initialState = initialState :=
  unhandled_event_preserves_state SSEEventType.node_start (by decide)
    sampleData "0" "t0" initialState

/-- C6: the trace log is append-only — `addTrace` and the `trace` event
handler extend the trace list by exactly one entry at its end, and every
other event type leaves the trace list untouched, so no previously
recorded entry is revised, reordered or deleted during a run. -/
theorem trace_log_append_only (t : TraceEntry) (data : SSEData)
    (nowMs nowIso : String) (s : ExecutorState) :
    (addTrace t s).traces = s.traces ++ [t] ∧
    (handleSSEEvent SSEEventType.trace data nowMs nowIso s).traces =
      s.traces ++ [data.trace] ∧
    (∀ ev : SSEEventType, ev ≠ SSEEventType.trace →
      (handleSSEEvent ev data nowMs nowIso s).traces = s.traces) := by
  refine ⟨rfl, rfl, fun ev hev => ?_⟩
  cases ev <;> first | rfl | exact absurd rfl hev

/-- Witness for C6: on the initial state, `addTrace` yields the
one-entry trace list and a non-trace event leaves it empty. -/
theorem trace_log_append_only_witness :
    (addTrace sampleTrace initialState).traces = [sampleTrace] ∧
    (handleSSEEvent SSEEventType.complete sampleData "0" "t0"
      initialState).traces = [] := by
  have h := trace_log_append_only sampleTrace sampleData "0" "t0"
    initialState
  exact ⟨h.1, h.2.2 SSEEventType.complete (by decide)⟩

/-- C2 fails as stated: the chat panel offers resumption for a ledger
whose only task is `failed` (no `pending` task at all), and refuses it
for a run in the terminal phase `error` even though a `pending` task
remains. -/
theorem canResume_counterexample :
    canResume [taskFailedOnly] ExecutionPhase.completed = true ∧
    (∀ t ∈ [taskFailedOnly], t.status ≠ TaskStatus.pending) ∧
    canResume [taskPendingOnly] ExecutionPhase.error = false ∧
    taskPendingOnly.status = TaskStatus.pending := by
  decide

/-- C2 (amended): resumption is offered in the chat panel exactly when
the observed phase is `completed` and the ledger contains at least one
task with status `pending` or `failed`; in the saved-sessions list the
resume button is shown exactly when fewer tasks are counted completed
than exist and the stored phase is not "completed". -/
theorem canResume_iff_incomplete (tasks : List Task)
    (phase : ExecutionPhase) (sess : SavedSession) :
    (canResume tasks phase = true ↔
      phase = ExecutionPhase.completed ∧
        ∃ t ∈ tasks, t.status = TaskStatus.pending ∨
          t.status = TaskStatus.failed) ∧
    (resumeButtonShown sess = true ↔
      sess.completed_count < sess.task_count ∧
        sess.phase ≠ "completed") := by
  constructor
  · simp only [canResume, incompleteTasks, Bool.and_eq_true,
      decide_eq_true_eq, beq_iff_eq, List.length_pos, ne_eq,
      List.filter_eq_nil_iff, not_forall, and_comm]
    simp only [Bool.or_eq_true, beq_iff_eq, exists_prop, not_not,
      Bool.not_eq_true]
    constructor
    · rintro ⟨hphase, x, hx, hstat⟩
      exact ⟨hphase, x, hstat, hx⟩
    · rintro ⟨hphase, x, hstat, hx⟩
      exact ⟨hphase, x, hx, hstat⟩
  · simp [resumeButtonShown, hasPending, Bool.and_eq_true,
      decide_eq_true_eq, Bool.not_eq_true', beq_eq_false_iff_ne, ne_eq]

/-- C3: the event sequence a subscription handles is the prefix of the
incoming stream up to and including the first `complete` or `error`
event — on either of these the subscriber closes the connection, so no
later event of that subscription is handled and the handled sequence is
finite. -/
theorem subscription_stops_at_terminal_event (es1 : List SSEEvent)
    (e : SSEEvent) (es2 : List SSEEvent)
    (h1 : ∀ x ∈ es1, isTerminalEvent x.event = false)
    (h2 : isTerminalEvent e.event = true) :
    deliverAll (es1 ++ e :: es2) = es1 ++ [e] := by
  induction es1 with
  | nil => simp [deliverAll, h2]
  | cons x xs ih =>
      have hx : isTerminalEvent x.event = false :=
        h1 x (List.mem_cons_self x xs)
      simp [deliverAll, hx,
        ih (fun y hy => h1 y (List.mem_cons_of_mem _ hy))]

/-- Witness for C3: a `complete` event cuts off the rest of the
stream — the later `connected` event is not handled. -/
theorem subscription_stops_at_terminal_event_witness :
    deliverAll [sampleConnectedEvent, sampleCompleteEvent,
      sampleConnectedEvent] =
      [sampleConnectedEvent, sampleCompleteEvent] :=
  subscription_stops_at_terminal_event [sampleConnectedEvent]
    sampleCompleteEvent [sampleConnectedEvent] (by decide) (by decide)

/-! ### Theorems about the modelled engine -/

/-- `updateFirstPending` rewrites exactly the first pending task of the
ledger and leaves every other task unchanged. -/
theorem updateFirstPending_split (ts : String) :
    ∀ (pre : List Task) (t : Task) (post : List Task),
      (∀ u ∈ pre, u.status ≠ TaskStatus.pending) →
      t.status = TaskStatus.pending →
      updateFirstPending ts (pre ++ t :: post) =
        pre ++ ({ t with
                  status := .in_progress
                  started_at := some ts } :: post) := by
  intro pre
  induction pre with
  | nil =>
      intro t post _ ht
      simp [updateFirstPending, ht]
  | cons u us ih =>
      intro t post hpre ht
      have hu : (u.status == TaskStatus.pending) = false := by
        simpa using hpre u (List.mem_cons_self u us)
      simp [updateFirstPending, hu,
        ih t post (fun v hv => hpre v (List.mem_cons_of_mem _ hv)) ht]

/-- `updateFirstPending` preserves the per-task result/error
invariant. -/
theorem updateFirstPending_taskInv (ts : String) :
    ∀ l : List Task, (∀ t ∈ l, taskInv t) →
      ∀ t ∈ updateFirstPending ts l, taskInv t := by
  intro l
  induction l with
  | nil => intro _ t ht; simp [updateFirstPending] at ht
  | cons u us ih =>
      intro h t ht
      by_cases hu : (u.status == TaskStatus.pending) = true
      · simp only [updateFirstPending, if_pos hu] at ht
        rcases List.mem_cons.mp ht with h1 | h1
        · subst h1
          have hs : u.status = TaskStatus.pending := by simpa using hu
          have hinv := h u (List.mem_cons_self u us)
          have hres : u.result = none := by
            rcases hr : u.result with _ | v
            · rfl
            · have hc := hinv.1 (by simp [hr])
              rw [hs] at hc
              exact absurd hc (by decide)
          have herr : u.error = none := by
            rcases he : u.error with _ | v
            · rfl
            · have hc := hinv.2 (by simp [he])
              rw [hs] at hc
              exact absurd hc (by decide)
          simp [taskInv, hres, herr]
        · exact h t (List.mem_cons_of_mem _ h1)
      · simp only [updateFirstPending, if_neg hu] at ht
        rcases List.mem_cons.mp ht with h1 | h1
        · subst h1; exact h t (List.mem_cons_self t us)
        · exact ih (fun v hv => h v (List.mem_cons_of_mem _ hv)) t h1

/-- `finishCurrent` preserves the per-task result/error invariant. -/
theorem finishCurrent_taskInv (o : ExecOutcome) (ts : String) :
    ∀ l : List Task, (∀ t ∈ l, taskInv t) →
      ∀ t ∈ finishCurrent o ts l, taskInv t := by
  intro l
  induction l with
  | nil => intro _ t ht; simp [finishCurrent] at ht
  | cons u us ih =>
      intro h t ht
      by_cases hu : (u.status == TaskStatus.in_progress) = true
      · simp only [finishCurrent, if_pos hu] at ht
        rcases List.mem_cons.mp ht with h1 | h1
        · subst h1
          have hs : u.status = TaskStatus.in_progress := by simpa using hu
          have hinv := h u (List.mem_cons_self u us)
          have hres : u.result = none := by
            rcases hr : u.result with _ | v
            · rfl
            · have hc := hinv.1 (by simp [hr])
              rw [hs] at hc
              exact absurd hc (by decide)
          have herr : u.error = none := by
            rcases he : u.error with _ | v
            · rfl
            · have hc := hinv.2 (by simp [he])
              rw [hs] at hc
              exact absurd hc (by decide)
          cases o <;> simp [taskInv, hres, herr]
        · exact h t (List.mem_cons_of_mem _ h1)
      · simp only [finishCurrent, if_neg hu] at ht
        rcases List.mem_cons.mp ht with h1 | h1
        · subst h1; exact h t (List.mem_cons_self t us)
        · exact ih (fun v hv => h v (List.mem_cons_of_mem _ hv)) t h1

/-- Freshly planned tasks satisfy the result/error invariant. -/
theorem mkTask_taskInv (proposals : List (String × String)) :
    ∀ t ∈ proposals.enum.map (fun p => mkTask p.1 p.2), taskInv t := by
  intro t ht
  rcases List.mem_map.mp ht with ⟨p, _, rfl⟩
  simp [taskInv, mkTask]

/-- One engine transition preserves the per-task result/error
invariant. -/
theorem engineStep_taskInv (p : EngineState × List GenResult)
    (h : ∀ t ∈ p.1.tasks, taskInv t) :
    ∀ t ∈ (engineStep p).1.tasks, taskInv t := by
  obtain ⟨s, gs⟩ := p
  simp only [engineStep]
  repeat' split
  all_goals
    first
    | exact h
    | exact updateFirstPending_taskInv _ _ h
    | exact finishCurrent_taskInv _ _ _ h
    | exact mkTask_taskInv _

/-- Every number of engine transitions preserves the per-task
result/error invariant. -/
theorem runEngine_taskInv (n : Nat) :
    ∀ p : EngineState × List GenResult, (∀ t ∈ p.1.tasks, taskInv t) →
      ∀ t ∈ (runEngine n p).1.tasks, taskInv t := by
  induction n with
  | zero => intro p h; simpa [runEngine] using h
  | succ k ih =>
      intro p h
      rw [runEngine, Function.iterate_succ_apply]
      exact ih _ (engineStep_taskInv p h)

/-- One engine transition never modifies the paused flag (pausing is a
coordinator-level action, §4.5). -/
theorem engineStep_paused (p : EngineState × List GenResult) :
    (engineStep p).1.paused = p.1.paused := by
  obtain ⟨s, gs⟩ := p
  simp only [engineStep]
  repeat' split
  all_goals rfl

/-- Engine transitions never modify the paused flag. -/
theorem runEngine_paused (n : Nat) :
    ∀ p : EngineState × List GenResult,
      (runEngine n p).1.paused = p.1.paused := by
  induction n with
  | zero => intro p; rfl
  | succ k ih =>
      intro p
      rw [runEngine, Function.iterate_succ_apply]
      exact ((ih (engineStep p)).trans (engineStep_paused p))

/-- Restoring a snapshot of an unpaused state reproduces that state. -/
theorem resumeEngine_save (X : EngineState) (hX : X.paused = false) :
    resumeEngine (save X) = X := by
  cases X
  simp_all [resumeEngine, save, load]

/-- C5: in every state of a run reachable from a fresh run by engine
transitions, every task's `result` and `error` fields are mutually
exclusive — `result` is present only when the task is `completed`,
`error` only when it is `failed`, and never both. -/
theorem task_result_error_exclusive (goal : String)
    (gs : List GenResult) (n : Nat) (t : Task)
    (ht : t ∈ (runEngine n (engineInit goal, gs)).1.tasks) :
    ¬(t.result.isSome = true ∧ t.error.isSome = true) ∧
    (t.result.isSome = true → t.status = TaskStatus.completed) ∧
    (t.error.isSome = true → t.status = TaskStatus.failed) := by
  have hinv : taskInv t :=
    runEngine_taskInv n (engineInit goal, gs) (by simp [engineInit]) t ht
  refine ⟨?_, hinv.1, hinv.2⟩
  rintro ⟨hr, he⟩
  have h1 := hinv.1 hr
  have h2 := hinv.2 he
  rw [h1] at h2
  exact absurd h2 (by decide)

/-- Witness for C5: the task completed by the demo run (four
transitions on `demoGen`) carries a result, no error, and satisfies
mutual exclusivity. -/
theorem task_result_error_exclusive_witness :
    demoTask ∈ (runEngine 4 (engineInit "g", demoGen)).1.tasks ∧
    ¬(demoTask.result.isSome = true ∧ demoTask.error.isSome = true) :=
  ⟨by decide,
    (task_result_error_exclusive "g" demoGen 4 demoTask (by decide)).1⟩

/-- C8: loading a Checkpoint Store snapshot and resuming is
behaviorally equivalent to never having stopped — for every run, every
interruption point `k` and the same remaining generator outputs, `n`
further transitions of the resumed run produce exactly the state (in
particular the same terminal Task Ledger) that `k + n` uninterrupted
transitions produce. -/
theorem resume_checkpoint_equiv (s : EngineState)
    (gs : List GenResult) (k n : Nat) (hp : s.paused = false) :
    runEngine n (resumeEngine (save (runEngine k (s, gs)).1),
        (runEngine k (s, gs)).2) =
      runEngine (n + k) (s, gs) ∧
    (runEngine n (resumeEngine (save (runEngine k (s, gs)).1),
        (runEngine k (s, gs)).2)).1.tasks =
      (runEngine (n + k) (s, gs)).1.tasks := by
  have hpk : (runEngine k (s, gs)).1.paused = false := by
    rw [runEngine_paused]
    exact hp
  have hmain : runEngine n (resumeEngine (save (runEngine k (s, gs)).1),
      (runEngine k (s, gs)).2) = runEngine (n + k) (s, gs) := by
    rw [resumeEngine_save _ hpk, Prod.mk.eta]
    simp [runEngine, Function.iterate_add_apply]
  exact ⟨hmain, by rw [hmain]⟩

/-- Witness for C8: interrupting the demo run after one transition and
resuming from its snapshot reaches the same state as two uninterrupted
transitions. -/
theorem resume_checkpoint_equiv_witness :
    runEngine 1 (resumeEngine (save (runEngine 1 (engineInit "g",
        demoGen)).1), (runEngine 1 (engineInit "g", demoGen)).2) =
      runEngine 2 (engineInit "g", demoGen) :=
  (resume_checkpoint_equiv (engineInit "g") demoGen 1 1 rfl).1

/-- C1: in the `selecting` state the engine marks exactly the first
task in ledger order whose status is `pending` as `in_progress`
(recording its start timestamp) and advances to `executing`; it
advances to `completing` if and only if `should_continue` routes to
`complete`, which holds if and only if no task in the ledger is
`pending`. -/
theorem selecting_first_pending (s : EngineState) (gs : List GenResult)
    (hphase : s.phase = EngineNode.selecting)
    (hpause : s.paused = false) :
    (∀ (pre : List Task) (t : Task) (post : List Task),
      s.tasks = pre ++ t :: post →
      (∀ u ∈ pre, u.status ≠ TaskStatus.pending) →
      t.status = TaskStatus.pending →
      (engineStep (s, gs)).1.tasks =
        pre ++ ({ t with
                  status := .in_progress
                  started_at := some (toString s.traces.length) } ::
          post) ∧
      (engineStep (s, gs)).1.phase = EngineNode.executing) ∧
    ((engineStep (s, gs)).1.phase = EngineNode.completing ↔
      should_continue s.tasks = Route.complete) ∧
    (should_continue s.tasks = Route.complete ↔
      ∀ t ∈ s.tasks, t.status ≠ TaskStatus.pending) := by
  refine ⟨?_, ?_, ?_⟩
  · intro pre t post hsplit hpre ht
    have hupd := updateFirstPending_split
      (toString s.traces.length) pre t post hpre ht
    constructor
    · simp [engineStep, hpause, hphase, hsplit, ht, hupd]
    · simp [engineStep, hpause, hphase, hsplit, ht]
  · by_cases hemp : (s.tasks.filter
        (fun u => u.status == TaskStatus.pending)).isEmpty = true
    · simp [engineStep, hpause, hphase, hemp, should_continue]
    · have hemp' : (s.tasks.filter
          (fun u => u.status == TaskStatus.pending)).isEmpty = false := by
        simpa using hemp
      simp [engineStep, hpause, hphase, hemp', should_continue]
  · unfold should_continue
    by_cases hemp : (s.tasks.filter
        (fun u => u.status == TaskStatus.pending)).isEmpty = true
    · rw [if_pos hemp]
      have hnil := List.isEmpty_iff.mp hemp
      have hall := List.filter_eq_nil_iff.mp hnil
      simp only [beq_iff_eq] at hall
      exact ⟨fun _ => hall, fun _ => rfl⟩
    · rw [if_neg hemp]
      constructor
      · intro hc
        exact absurd hc (by decide)
      · intro hall
        have : s.tasks.filter
            (fun u => u.status == TaskStatus.pending) = [] :=
          List.filter_eq_nil_iff.mpr (by simpa using hall)
        exact absurd (List.isEmpty_iff.mpr this) hemp

/-- A transition out of a non-error phase that lands in the `error`
phase always records a failure reason in the last-error field. -/
theorem engineStep_error_reason (s : EngineState) (gs : List GenResult)
    (hph : s.phase ≠ EngineNode.error)
    (hpe : (engineStep (s, gs)).1.phase = EngineNode.error) :
    ∃ r, (engineStep (s, gs)).1.error = some r := by
  revert hpe
  simp only [engineStep]
  repeat' split
  all_goals
    first
    | (intro hpe; exact ⟨_, rfl⟩)
    | (intro hpe; exact absurd hpe hph)
    | (intro hpe; simp at hpe)

/-- C4: every error the engine records is surfaced to a live subscriber
as a first-class `error` event carrying the failure reason — a
transition entering the `error` phase always records a reason and its
publication to the Event Bus contains `error{reason}` — and handling an
`error{reason}` event records that reason as the store's error string,
sets the observed phase to `error` and clears the loading flag, leaving
every other field unchanged; no error event is silently swallowed. -/
theorem error_event_surfaced (s : EngineState) (gs : List GenResult)
    (data : SSEData) (nowMs nowIso : String) (st : ExecutorState) :
    (s.error = none → s.phase ≠ EngineNode.error →
      (engineStep (s, gs)).1.phase = EngineNode.error →
      ∃ r, (engineStep (s, gs)).1.error = some r ∧
        BusEvent.error r ∈ publishTransition s (engineStep (s, gs)).1) ∧
    (∀ r, s.error = none → (engineStep (s, gs)).1.error = some r →
      BusEvent.error r ∈ publishTransition s (engineStep (s, gs)).1) ∧
    handleSSEEvent SSEEventType.error data nowMs nowIso st =
      { st with
        error := some data.error
        phase := ExecutionPhase.error
        isLoading := false } ∧
    (handleSSEEvent SSEEventType.error data nowMs nowIso st).error =
      some data.error := by
  have hA : ∀ r, s.error = none →
      (engineStep (s, gs)).1.error = some r →
      BusEvent.error r ∈ publishTransition s (engineStep (s, gs)).1 := by
    intro r h1 h2
    simp [publishTransition, h1, h2]
  refine ⟨?_, hA, rfl, rfl⟩
  intro h0 hph hpe
  obtain ⟨r, hr⟩ := engineStep_error_reason s gs hph hpe
  exact ⟨r, hr, hA r h0 hr⟩

/-- Witness for C4: the empty-goal validation failure of the demo run
is published as a first-class `error` event carrying its reason. -/
theorem error_event_surfaced_witness :
    BusEvent.error "Goal cannot be empty" ∈
      publishTransition (engineInit "")
        (engineStep (engineInit "", [])).1 :=
  (error_event_surfaced (engineInit "") [] sampleData "0" "t0"
      initialState).2.1 "Goal cannot be empty" rfl (by decide)

/-- Witness for C1: on the ledger [A:completed, B:pending, C:pending]
in the `selecting` state, the engine marks B (never C) `in_progress`
and advances to `executing`. -/
theorem selecting_first_pending_witness :
    (engineStep (stateABC, [])).1.tasks =
      [taskA, { taskB with
                status := .in_progress
                started_at := some "0" }, taskC] ∧
    (engineStep (stateABC, [])).1.phase = EngineNode.executing := by
  have h := (selecting_first_pending stateABC [] rfl rfl).1
    [taskA] taskB [taskC] rfl (by decide) rfl
  refine ⟨?_, h.2⟩
  rw [h.1]
  decide

end TodoExec
